import Mathlib

/-
  Verification development for the CM360 cloud conversion upload node
  (src/CM360_cloud_conversion_upload_node/main.py).

  The Python module is embedded shallowly:
  * dynamic JSON values become the inductive type Json;
  * Python dicts with optional keys become structures with Option fields,
    and a lookup of an absent key becomes a raised PyError.keyError;
  * the external API client built by setup() is abstracted as an oracle
    mapping the index of a batchinsert call to either a transport error
    or a Response value (the spec treats credential acquisition and the
    API client as external collaborators);
  * print statements that carry semantic content become Event values in
    an emitted trace; purely decorative log lines (timestamps, start and
    completion banners) are not modelled;
  * an uncaught Python exception becomes the error field of an Outcome:
    error = none models a normal return, error = some e models an
    exception propagating to the invocation boundary.
-/

set_option maxRecDepth 8000

namespace CM360

/-- Untyped JSON values, the universe of the dynamic data the Python
code moves around. Numbers are modelled as integers; no claim performs
numeric computation on payload fields, they are copied verbatim. -/
inductive Json where
  | null
  | bool (b : Bool)
  | num (n : Int)
  | str (s : String)
  | arr (xs : List Json)
  | obj (fields : List (String × Json))

/-- Escaping of quote and backslash inside a serialized JSON string,
modelling the stdlib json.dumps treatment of the characters that can
occur here (control-character escapes are irrelevant to the claims). -/
def escapeString (s : String) : String :=
  s.foldl
    (fun acc c =>
      acc ++ (if c = '\"' then "\\\"" else if c = '\\' then "\\\\" else String.singleton c))
    ""

mutual

/-- Serialization of a Json value, modelling json.dumps with its default
separators (comma-space between items, colon-space after keys). -/
def dumps : Json → String
  | Json.null => "null"
  | Json.bool true => "true"
  | Json.bool false => "false"
  | Json.num n => toString n
  | Json.str s => "\"" ++ escapeString s ++ "\""
  | Json.arr xs => "[" ++ dumpsList xs ++ "]"
  | Json.obj fs => "\x7b" ++ dumpsFields fs ++ "\x7d"

/-- Serialization of the elements of a JSON array, comma-space separated. -/
def dumpsList : List Json → String
  | [] => ""
  | [x] => dumps x
  | x :: y :: xs => dumps x ++ ", " ++ dumpsList (y :: xs)

/-- Serialization of the fields of a JSON object, comma-space separated. -/
def dumpsFields : List (String × Json) → String
  | [] => ""
  | [(k, v)] => "\"" ++ escapeString k ++ "\": " ++ dumps v
  | (k, v) :: f :: fs =>
      "\"" ++ escapeString k ++ "\": " ++ dumps v ++ ", " ++ dumpsFields (f :: fs)

end

/-- One input conversion row (main.py lines 91-100 read exactly these
five keys from each row). The values are untyped payload data. -/
structure ConversionRecord where
  conversionVisitExternalClickId : Json
  conversionId : Json
  conversionTimestampMicros : Json
  conversionRevenue : Json
  conversionQuantity : Json

/-- One error entry of a per-line status, with the two keys the code
reads (main.py line 117). -/
structure ErrorEntry where
  code : String
  message : String

/-- One entry of the per-line status list of a batchinsert response.
The code accesses the keys conversion, errors and gclid dynamically
(main.py lines 112-119); each is optional, absence of an accessed key
raises a KeyError. -/
structure StatusLine where
  conversion : Option Json
  errors : Option (List ErrorEntry)
  gclid : Option String

/-- A batchinsert response; the code reads hasFailures and status
(main.py lines 108, 111). -/
structure Response where
  hasFailures : Bool
  status : List StatusLine

/-- The Python exceptions that can propagate out of the embedded code:
a transport or API error raised by request.execute, a KeyError from a
dict lookup, and the TypeError raised by a membership test on None. -/
inductive PyError where
  | transport (code : Nat)
  | keyError (field : String)
  | typeError

/-- The semantically relevant observable actions of the module: the
batchinsert submission itself (main.py line 104) and the log lines of
lines 81, 109, 116-117, 119, 153, 155. -/
inductive Event where
  | apiCall (profileId : String) (window : List ConversionRecord) (body : String)
  | batchSuccess
  | errorReport (conversionSerialized code message : String)
  | insertedFallback (gclid : String)
  | missingFloodlight
  | noConversionData
  | missingConfig

/-- Result of running a piece of the embedded code: the trace of events
emitted before it finished, and the exception it ended with, if any
(error = none models a normal return). -/
structure Outcome where
  events : List Event
  error : Option PyError

/-- The conversion object built for one row (main.py lines 91-100),
field for field in source order. -/
def conversionJson (fl_configuration_id fl_activity_id : String)
    (row : ConversionRecord) : Json :=
  Json.obj [
    ("kind", Json.str "dfareporting#conversion"),
    ("gclid", row.conversionVisitExternalClickId),
    ("floodlightActivityId", Json.str fl_activity_id),
    ("floodlightConfigurationId", Json.str fl_configuration_id),
    ("ordinal", row.conversionId),
    ("timestampMicros", row.conversionTimestampMicros),
    ("value", row.conversionRevenue),
    ("quantity", row.conversionQuantity)]

/-- The literal string the code starts each batch body with
(main.py lines 88 and 122). -/
def batchHeader : String :=
  "\x7b\"kind\": \"dfareporting#conversionsBatchInsertRequest\", \"conversions\": ["

/-- The serialized form of one conversion, json.dumps of the object of
main.py lines 91-100. -/
def conversionStr (fl_configuration_id fl_activity_id : String)
    (row : ConversionRecord) : String :=
  dumps (conversionJson fl_configuration_id fl_activity_id row)

/-- The all_conversions accumulator after the inner for loop of
main.py lines 90-102: the header followed by each serialized conversion
of the window, each with a trailing comma. -/
def allConversionsStr (fl_configuration_id fl_activity_id : String)
    (window : List ConversionRecord) : String :=
  window.foldl
    (fun acc row => acc ++ conversionStr fl_configuration_id fl_activity_id row ++ ",")
    batchHeader

/-- Python slicing s[:-1]: the string without its last character. -/
def strDropLast (s : String) : String :=
  String.mk s.data.dropLast

/-- The request body string for one window (main.py line 103): the
accumulator with the trailing comma stripped, closed with a bracket and
a brace. The source parses this string with json.loads before
submitting it; the string itself is the faithful observable. -/
def bodyString (fl_configuration_id fl_activity_id : String)
    (window : List ConversionRecord) : String :=
  strDropLast (allConversionsStr fl_configuration_id fl_activity_id window) ++ "]\x7d"

/-- The try block of main.py lines 113-117 for one status line: raises
KeyError (returned as the name of the missing key) when the errors key
or, once some error is to be reported, the conversion key is absent;
otherwise yields one errorReport event per error entry. An empty errors
list is falsy, so nothing is printed for that line. -/
def tryLineErrors (line : StatusLine) : Except String (List Event)  :=
  match line.errors with
  | none => Except.error "errors"
  | some errs =>
    if errs.isEmpty then Except.ok []
    else
      match line.conversion with
      | none => Except.error "conversion"
      | some conv =>
        Except.ok (errs.map fun e => Event.errorReport (dumps conv) e.code e.message)

/-- One status line of main.py lines 112-119: the try block, and on any
exception the bare except handler, which prints the line as inserted --
itself raising KeyError when the gclid key is absent, an exception that
propagates. -/
def processLine (line : StatusLine) : Except PyError (List Event) :=
  match tryLineErrors line with
  | Except.ok evs => Except.ok evs
  | Except.error _ =>
    match line.gclid with
    | some g => Except.ok [Event.insertedFallback g]
    | none => Except.error (PyError.keyError "gclid")

/-- The walk over the status list (main.py line 112): events of the
lines processed so far are kept; an exception escaping a line stops the
walk and propagates. -/
def runStatus : List StatusLine → Outcome
  | [] => ⟨[], none⟩
  | l :: ls =>
    match processLine l with
    | Except.ok evs =>
      let rest := runStatus ls
      ⟨evs ++ rest.events, rest.error⟩
    | Except.error e => ⟨[], some e⟩

/-- Response handling of main.py lines 108-119: report batch success
when hasFailures is false, otherwise walk the status list. -/
def processResponse (resp : Response) : Outcome :=
  if resp.hasFailures then runStatus resp.status
  else ⟨[Event.batchSuccess], none⟩

/-- The while loop of main.py lines 89-122, one recursive step per
iteration. The cursor advances over the list by dropping 100 rows per
step; the fuel argument only makes the recursion structural (the
Python loop terminates because currentrow strictly increases, and
rows.length bounds the iteration count), it never cuts a run short
when rows.length is at most fuel. The api oracle stands for
service.conversions().batchinsert(...).execute() on the k-th call:
Except.error models a raised transport or API error, which the code
does not catch. -/
def uploadLoop (api : Nat → Except Nat Response)
    (profile_id fl_configuration_id fl_activity_id : String) :
    Nat → List ConversionRecord → Nat → Outcome
  | _, [], _ => ⟨[], none⟩
  | 0, _ :: _, _ => ⟨[], none⟩
  | fuel + 1, r :: rs, k =>
    let window := (r :: rs).take 100
    let callEv := Event.apiCall profile_id window
      (bodyString fl_configuration_id fl_activity_id window)
    match api k with
    | Except.error e => ⟨[callEv], some (PyError.transport e)⟩
    | Except.ok resp =>
      match (processResponse resp).error with
      | some e => ⟨callEv :: (processResponse resp).events, some e⟩
      | none =>
        let rest := uploadLoop api profile_id fl_configuration_id fl_activity_id
          fuel ((r :: rs).drop 100) (k + 1)
        ⟨callEv :: ((processResponse resp).events ++ rest.events), rest.error⟩

/-- upload_data of main.py lines 78-122, with the source argument order
(rows, profile_id, fl_configuration_id, fl_activity_id). The guard of
lines 80-82 returns after a report when either floodlight identifier is
falsy (the empty string). -/
def upload_data (api : Nat → Except Nat Response) (rows : List ConversionRecord)
    (profile_id fl_configuration_id fl_activity_id : String) : Outcome :=
  if fl_activity_id = "" ∨ fl_configuration_id = "" then
    ⟨[Event.missingFloodlight], none⟩
  else
    uploadLoop api profile_id fl_configuration_id fl_activity_id rows.length rows 0

/-- The config object of the decoded payload; each of the three keys
the code reads (main.py lines 140-144) is optional. -/
structure Config where
  profile_id : Option String
  floodlight_activity_id : Option String
  floodlight_configuration_id : Option String

/-- The decoded pub/sub payload after the extraction of lines 135-136:
the conversions list and the config object, each absent when its key is
missing from the data object. -/
structure Payload where
  conversions : Option (List ConversionRecord)
  config : Option Config

/-- Python truthiness of an optional string: None and the empty string
are falsy. -/
def strTruthy : Option String → Bool
  | none => false
  | some s => !(s = "")

/-- main of main.py lines 125-155, from the decoded payload on (base64
and JSON decoding of the envelope are external to the claims; their
failures propagate before this logic runs). Note the order of the
source: when conversion_data is truthy, the three config lookups of
lines 140-144 run first; if config is None, the membership test
raises TypeError. -/
def mainHandler (api : Nat → Except Nat Response) (payload : Payload) : Outcome :=
  match payload.conversions with
  | none => ⟨[Event.noConversionData], none⟩
  | some rows =>
    if rows.isEmpty then ⟨[Event.noConversionData], none⟩
    else
      match payload.config with
      | none => ⟨[], some PyError.typeError⟩
      | some cfg =>
        if strTruthy cfg.profile_id && strTruthy cfg.floodlight_activity_id
            && strTruthy cfg.floodlight_configuration_id then
          upload_data api rows (cfg.profile_id.getD "")
            (cfg.floodlight_configuration_id.getD "")
            (cfg.floodlight_activity_id.getD "")
        else ⟨[Event.missingConfig], none⟩

/-- The batchinsert submissions contained in a trace, in order: profile
id, window of records, and request body string. -/
def callEvents (evs : List Event) : List (String × List ConversionRecord × String) :=
  evs.filterMap fun e =>
    match e with
    | Event.apiCall p w b => some (p, w, b)
    | _ => none

/-- The windows of records submitted in a trace, in order. -/
def callWindows (evs : List Event) : List (List ConversionRecord) :=
  evs.filterMap fun e =>
    match e with
    | Event.apiCall _ w _ => some w
    | _ => none

/-- Fueled partition of a list into consecutive windows of at most 100
elements; fuel at least the list length is enough. -/
def chunksF : Nat → List ConversionRecord → List (List ConversionRecord)
  | _, [] => []
  | 0, _ :: _ => []
  | fuel + 1, r :: rs => (r :: rs).take 100 :: chunksF fuel ((r :: rs).drop 100)

/-- The partition of the input list into the consecutive windows of at
most 100 records the loop of main.py lines 89-122 slices. -/
def chunks (l : List ConversionRecord) : List (List ConversionRecord) :=
  chunksF l.length l

/-- Comma-separated join of a list of strings (no trailing comma). -/
def intercalateComma : List String → String
  | [] => ""
  | [s] => s
  | s :: t :: ts => s ++ "," ++ intercalateComma (t :: ts)

/-- The serialized conversions of a window, each followed by a comma,
appended to the batch header: the right-hand shape of the fold that
builds the accumulator string. -/
def commaTail (fl_configuration_id fl_activity_id : String) :
    List ConversionRecord → String
  | [] => ""
  | r :: rs =>
    conversionStr fl_configuration_id fl_activity_id r ++ ","
      ++ commaTail fl_configuration_id fl_activity_id rs

/-- The api oracle behaves cleanly from call index k on: the call
returns a response whose processing raises no exception. -/
def cleanFrom (api : Nat → Except Nat Response) (k : Nat) : Prop :=
  ∀ j, k ≤ j → ∃ resp, api j = Except.ok resp ∧ (processResponse resp).error = none

/-- An oracle that always answers with a failure-free response. -/
def cleanApi : Nat → Except Nat Response :=
  fun _ => Except.ok ⟨false, []⟩

/-- An oracle whose first call succeeds with a failure-free response
and whose later calls raise a transport error. -/
def api1 : Nat → Except Nat Response :=
  fun j => if j = 0 then Except.ok ⟨false, []⟩ else Except.error 7

/-- A sample conversion record for concrete runs. -/
def rec0 : ConversionRecord :=
  ⟨Json.str "gclid-1", Json.num 1, Json.num 1700000000000000, Json.num 25, Json.num 1⟩

theorem cleanApi_clean : cleanFrom cleanApi 0 :=
  fun _ _ => ⟨⟨false, []⟩, rfl, rfl⟩

theorem strDropLast_comma (x : String) : strDropLast (x ++ ",") = x := by
  rcases x with ⟨xd⟩
  show String.mk ((String.mk xd ++ ",").data.dropLast) = String.mk xd
  rw [String.data_append]
  simp [strDropLast]

theorem intercalateComma_cons₂ (s t : String) (ts : List String) :
    intercalateComma (s :: t :: ts) = s ++ "," ++ intercalateComma (t :: ts) := rfl

theorem foldl_comma (fc fa : String) :
    ∀ (l : List ConversionRecord) (init : String),
      l.foldl (fun acc row => acc ++ conversionStr fc fa row ++ ",") init
        = init ++ commaTail fc fa l := by
  intro l
  induction l with
  | nil => intro init; simp [commaTail, String.append_empty]
  | cons r rs ih =>
    intro init
    simp only [List.foldl_cons, commaTail]
    rw [ih]
    simp [String.append_assoc]

theorem commaTail_eq_intercalate (fc fa : String) :
    ∀ (l : List ConversionRecord), l ≠ [] →
      commaTail fc fa l = intercalateComma (l.map (conversionStr fc fa)) ++ "," := by
  intro l
  induction l with
  | nil => intro h; exact absurd rfl h
  | cons r rs ih =>
    intro _
    cases rs with
    | nil => simp [commaTail, intercalateComma, String.append_empty]
    | cons t ts =>
      have h1 : commaTail fc fa (r :: t :: ts)
          = conversionStr fc fa r ++ "," ++ commaTail fc fa (t :: ts) := rfl
      rw [h1, ih (List.cons_ne_nil t ts)]
      simp only [List.map_cons, intercalateComma_cons₂]
      simp [String.append_assoc]

theorem bodyString_eq (fc fa : String) (window : List ConversionRecord)
    (hw : window ≠ []) :
    bodyString fc fa window
      = batchHeader ++ intercalateComma (window.map (conversionStr fc fa)) ++ "]\x7d" := by
  unfold bodyString allConversionsStr
  rw [foldl_comma, commaTail_eq_intercalate fc fa window hw, ← String.append_assoc,
    strDropLast_comma]

theorem chunksF_congr :
    ∀ (f₁ : Nat), ∀ (f₂ : Nat) (l : List ConversionRecord),
      l.length ≤ f₁ → l.length ≤ f₂ → chunksF f₁ l = chunksF f₂ l := by
  intro f₁
  induction f₁ with
  | zero =>
    intro f₂ l h₁ _
    have : l = [] := List.eq_nil_of_length_eq_zero (Nat.le_zero.mp h₁)
    subst this
    cases f₂ <;> rfl
  | succ f ih =>
    intro f₂ l h₁ h₂
    cases l with
    | nil => cases f₂ <;> rfl
    | cons r rs =>
      simp only [List.length_cons] at h₁ h₂
      cases f₂ with
      | zero => omega
      | succ g =>
        simp only [chunksF]
        rw [ih g ((r :: rs).drop 100)
          (by simp only [List.length_drop, List.length_cons]; omega)
          (by simp only [List.length_drop, List.length_cons]; omega)]

theorem chunks_cons (r : ConversionRecord) (rs : List ConversionRecord) :
    chunks (r :: rs) = (r :: rs).take 100 :: chunks ((r :: rs).drop 100) := by
  show chunksF (rs.length + 1) (r :: rs) = _
  simp only [chunksF]
  rw [chunksF_congr rs.length ((r :: rs).drop 100).length ((r :: rs).drop 100)
    (by simp only [List.length_drop, List.length_cons]; omega) (Nat.le_refl _)]
  rfl

theorem chunks_flatten : ∀ (fuel : Nat) (l : List ConversionRecord),
    l.length ≤ fuel → (chunks l).flatten = l := by
  intro fuel
  induction fuel with
  | zero =>
    intro l h
    have : l = [] := List.eq_nil_of_length_eq_zero (Nat.le_zero.mp h)
    subst this; rfl
  | succ f ih =>
    intro l h
    cases l with
    | nil => rfl
    | cons r rs =>
      simp only [List.length_cons] at h
      rw [chunks_cons, List.flatten_cons,
        ih ((r :: rs).drop 100) (by simp only [List.length_drop, List.length_cons]; omega),
        List.take_append_drop]

theorem chunks_sizes : ∀ (fuel : Nat) (l : List ConversionRecord),
    l.length ≤ fuel → ∀ w ∈ chunks l, w.length ≤ 100 ∧ 0 < w.length := by
  intro fuel
  induction fuel with
  | zero =>
    intro l h
    have : l = [] := List.eq_nil_of_length_eq_zero (Nat.le_zero.mp h)
    subst this; intro w hw; simp [chunks, chunksF] at hw
  | succ f ih =>
    intro l h
    cases l with
    | nil => intro w hw; simp [chunks, chunksF] at hw
    | cons r rs =>
      simp only [List.length_cons] at h
      rw [chunks_cons]
      intro w hw
      rcases List.mem_cons.mp hw with h1 | h2
      · subst h1
        rw [List.length_take]
        constructor <;> simp only [List.length_cons] <;> omega
      · exact ih ((r :: rs).drop 100)
          (by simp only [List.length_drop, List.length_cons]; omega) w h2

theorem chunks_length : ∀ (fuel : Nat) (l : List ConversionRecord),
    l.length ≤ fuel → (chunks l).length = (l.length + 99) / 100 := by
  intro fuel
  induction fuel with
  | zero =>
    intro l h
    have : l = [] := List.eq_nil_of_length_eq_zero (Nat.le_zero.mp h)
    subst this; rfl
  | succ f ih =>
    intro l h
    cases l with
    | nil => rfl
    | cons r rs =>
      simp only [List.length_cons] at h
      rw [chunks_cons, List.length_cons,
        ih ((r :: rs).drop 100) (by simp only [List.length_drop, List.length_cons]; omega)]
      simp only [List.length_drop, List.length_cons]
      rcases Nat.lt_or_ge (rs.length + 1) 100 with hlt | hge
      · have h1 : rs.length + 1 - 100 = 0 := by omega
        rw [h1]
        have h2 : (rs.length + 1 + 99) / 100 = 1 := by
          rw [show rs.length + 1 + 99 = rs.length + 1 * 100 by omega,
            Nat.add_mul_div_right _ _ (by omega : (0:Nat) < 100)]
          rw [Nat.div_eq_of_lt (by omega)]
        rw [h2]
      · have h1 : rs.length + 1 - 100 + 99 = rs.length := by omega
        rw [h1]
        have h2 : rs.length + 1 + 99 = rs.length + 100 := by omega
        rw [h2, Nat.add_div_right _ (by omega : (0:Nat) < 100)]

theorem callWindows_eq (evs : List Event) :
    callWindows evs = (callEvents evs).map (fun t => t.2.1) := by
  induction evs with
  | nil => rfl
  | cons e l ih =>
    cases e <;> simp only [callEvents, callWindows, List.filterMap_cons] at ih ⊢ <;>
      simp [ih]

theorem callEvents_append (l₁ l₂ : List Event) :
    callEvents (l₁ ++ l₂) = callEvents l₁ ++ callEvents l₂ :=
  List.filterMap_append l₁ l₂ _

theorem callEvents_errorReports (s : String) (errs : List ErrorEntry) :
    callEvents (errs.map fun e => Event.errorReport s e.code e.message) = [] := by
  induction errs with
  | nil => rfl
  | cons e es ih => simp only [List.map_cons, callEvents, List.filterMap_cons]; exact ih

theorem processLine_no_call (line : StatusLine) (evs : List Event)
    (h : processLine line = Except.ok evs) : callEvents evs = [] := by
  unfold processLine at h
  cases htry : tryLineErrors line with
  | ok evs' =>
    rw [htry] at h
    injection h with h
    subst h
    revert htry
    cases herr : line.errors with
    | none => simp [tryLineErrors, herr]
    | some errs =>
      by_cases hemp : errs.isEmpty
      · simp only [tryLineErrors, herr, if_pos hemp]
        intro htry
        injection htry with htry
        subst htry; rfl
      · cases hconv : line.conversion with
        | none => simp [tryLineErrors, herr, if_neg hemp, hconv]
        | some conv =>
          simp only [tryLineErrors, herr, if_neg hemp, hconv]
          intro htry
          injection htry with htry
          subst htry
          exact callEvents_errorReports _ _
  | error e =>
    rw [htry] at h
    cases hg : line.gclid with
    | some g =>
      rw [hg] at h
      injection h with h
      subst h; rfl
    | none => rw [hg] at h; exact absurd h (by simp)

theorem runStatus_no_call (ls : List StatusLine) :
    callEvents (runStatus ls).events = [] := by
  induction ls with
  | nil => rfl
  | cons l ls ih =>
    cases hl : processLine l with
    | ok evs =>
      simp only [runStatus, hl]
      rw [callEvents_append, processLine_no_call l evs hl, ih]
      rfl
    | error e => simp only [runStatus, hl]; rfl

theorem processResponse_no_call (resp : Response) :
    callEvents (processResponse resp).events = [] := by
  unfold processResponse
  by_cases h : resp.hasFailures
  · rw [if_pos h]; exact runStatus_no_call _
  · rw [if_neg h]; rfl

theorem callEvents_cons_api (p : String) (w : List ConversionRecord) (b : String)
    (evs : List Event) :
    callEvents (Event.apiCall p w b :: evs) = (p, w, b) :: callEvents evs := rfl

theorem uploadLoop_clean (api : Nat → Except Nat Response) (p fc fa : String) :
    ∀ (fuel : Nat) (rows : List ConversionRecord) (k : Nat),
      rows.length ≤ fuel → cleanFrom api k →
      callEvents (uploadLoop api p fc fa fuel rows k).events
          = (chunks rows).map (fun w => (p, w, bodyString fc fa w))
        ∧ (uploadLoop api p fc fa fuel rows k).error = none := by
  intro fuel
  induction fuel with
  | zero =>
    intro rows k hl _
    have : rows = [] := List.eq_nil_of_length_eq_zero (Nat.le_zero.mp hl)
    subst this
    exact ⟨rfl, rfl⟩
  | succ f ih =>
    intro rows k hl hc
    cases rows with
    | nil => exact ⟨rfl, rfl⟩
    | cons r rs =>
      simp only [List.length_cons] at hl
      obtain ⟨resp, hapi, herr⟩ := hc k (Nat.le_refl k)
      obtain ⟨ihev, iherr⟩ := ih ((r :: rs).drop 100) (k + 1)
        (by simp only [List.length_drop, List.length_cons]; omega)
        (fun j hj => hc j (by omega))
      simp only [uploadLoop, hapi, herr]
      constructor
      · rw [callEvents_cons_api, callEvents_append, processResponse_no_call, ihev,
          chunks_cons, List.map_cons, List.nil_append]
      · exact iherr

theorem uploadLoop_transport (api : Nat → Except Nat Response) (p fc fa : String)
    (e : Nat) :
    ∀ (fuel : Nat) (rows : List ConversionRecord) (k₀ j : Nat),
      rows.length ≤ fuel →
      (∀ i, i < j → ∃ resp, api (k₀ + i) = Except.ok resp
        ∧ (processResponse resp).error = none) →
      api (k₀ + j) = Except.error e →
      j < (chunks rows).length →
      (callEvents (uploadLoop api p fc fa fuel rows k₀).events).length = j + 1
        ∧ (uploadLoop api p fc fa fuel rows k₀).error = some (PyError.transport e) := by
  intro fuel
  induction fuel with
  | zero =>
    intro rows k₀ j hl _ _ hj
    have : rows = [] := List.eq_nil_of_length_eq_zero (Nat.le_zero.mp hl)
    subst this
    simp [chunks, chunksF] at hj
  | succ f ih =>
    intro rows k₀ j hl hc herr hj
    cases rows with
    | nil => simp [chunks, chunksF] at hj
    | cons r rs =>
      simp only [List.length_cons] at hl
      cases j with
      | zero =>
        rw [Nat.add_zero] at herr
        simp [uploadLoop, herr, callEvents]
      | succ j' =>
        obtain ⟨resp, hapi, hre⟩ := hc 0 (Nat.succ_pos j')
        rw [Nat.add_zero] at hapi
        rw [chunks_cons, List.length_cons] at hj
        obtain ⟨ihev, iherr⟩ := ih ((r :: rs).drop 100) (k₀ + 1) j'
          (by simp only [List.length_drop, List.length_cons]; omega)
          (fun i hi => by
            obtain ⟨resp', h1, h2⟩ := hc (i + 1) (by omega)
            exact ⟨resp', by rw [show k₀ + 1 + i = k₀ + (i + 1) by omega]; exact h1, h2⟩)
          (by rw [show k₀ + 1 + j' = k₀ + (j' + 1) by omega]; exact herr)
          (by omega)
        simp only [uploadLoop, hapi, hre]
        constructor
        · rw [callEvents_cons_api, callEvents_append, processResponse_no_call,
            List.nil_append, List.length_cons, ihev]
        · exact iherr

theorem upload_data_clean (api : Nat → Except Nat Response)
    (rows : List ConversionRecord) (p fc fa : String)
    (hclean : cleanFrom api 0) (hfa : fa ≠ "") (hfc : fc ≠ "") :
    callEvents (upload_data api rows p fc fa).events
        = (chunks rows).map (fun w => (p, w, bodyString fc fa w))
      ∧ (upload_data api rows p fc fa).error = none := by
  unfold upload_data
  rw [if_neg (not_or.mpr ⟨hfa, hfc⟩)]
  exact uploadLoop_clean api p fc fa rows.length rows 0 (Nat.le_refl _) hclean

theorem upload_clean_windows (api : Nat → Except Nat Response)
    (rows : List ConversionRecord) (p fc fa : String)
    (hclean : cleanFrom api 0) (hfa : fa ≠ "") (hfc : fc ≠ "") :
    callWindows (upload_data api rows p fc fa).events = chunks rows := by
  rw [callWindows_eq, (upload_data_clean api rows p fc fa hclean hfa hfc).1,
    List.map_map]
  exact List.map_id _

/-- C1: for every input list of conversion records, on a run in which
every submitted batch call succeeds and both floodlight identifiers are
non-empty, concatenating the batches that upload_data submits, in
submission order, reproduces the original input list exactly (no record
dropped, none duplicated, no reordering), and every submitted batch has
size at most 100 and strictly greater than 0. -/
theorem upload_batches_partition_input (api : Nat → Except Nat Response)
    (rows : List ConversionRecord) (p fc fa : String)
    (hclean : cleanFrom api 0) (hfa : fa ≠ "") (hfc : fc ≠ "") :
    (callWindows (upload_data api rows p fc fa).events).flatten = rows
      ∧ ∀ w ∈ callWindows (upload_data api rows p fc fa).events,
          w.length ≤ 100 ∧ 0 < w.length := by
  rw [upload_clean_windows api rows p fc fa hclean hfa hfc]
  exact ⟨chunks_flatten rows.length rows (Nat.le_refl _),
    chunks_sizes rows.length rows (Nat.le_refl _)⟩

/-- Witness for C1 at a concrete 250-record input. -/
theorem upload_batches_partition_input_witness :
    cleanFrom cleanApi 0 ∧ ("a" : String) ≠ "" ∧ ("c" : String) ≠ ""
      ∧ (callWindows (upload_data cleanApi (List.replicate 250 rec0) "p" "c" "a").events).flatten
          = List.replicate 250 rec0 := by
  refine ⟨cleanApi_clean, by decide, by decide, ?_⟩
  exact (upload_batches_partition_input cleanApi (List.replicate 250 rec0) "p" "c" "a"
    cleanApi_clean (by decide) (by decide)).1

/-- C2: for every input list of N records, on a run in which every
submitted batch call succeeds and both floodlight identifiers are
non-empty, upload_data performs exactly ceil(N/100) upload calls, and
the sizes of the submitted batches are those of the consecutive
100-windows of the input; in particular N = 0 performs zero calls and
N = 250 performs 3 calls with sizes 100, 100, 50 (see the witness). -/
theorem upload_call_count_ceil (api : Nat → Except Nat Response)
    (rows : List ConversionRecord) (p fc fa : String)
    (hclean : cleanFrom api 0) (hfa : fa ≠ "") (hfc : fc ≠ "") :
    (callWindows (upload_data api rows p fc fa).events).length = (rows.length + 99) / 100
      ∧ (callWindows (upload_data api rows p fc fa).events).map List.length
          = (chunks rows).map List.length := by
  rw [upload_clean_windows api rows p fc fa hclean hfa hfc]
  exact ⟨chunks_length rows.length rows (Nat.le_refl _), rfl⟩

/-- Witness for C2: 250 records yield exactly 3 calls with batch sizes
100, 100, 50, and the empty input yields zero calls. -/
theorem upload_call_count_ceil_witness :
    cleanFrom cleanApi 0 ∧ ("a" : String) ≠ "" ∧ ("c" : String) ≠ ""
      ∧ (callWindows (upload_data cleanApi (List.replicate 250 rec0) "p" "c" "a").events).length = 3
      ∧ (callWindows (upload_data cleanApi (List.replicate 250 rec0) "p" "c" "a").events).map List.length
          = [100, 100, 50]
      ∧ (callWindows (upload_data cleanApi [] "p" "c" "a").events).length = 0 := by
  have h := upload_call_count_ceil cleanApi (List.replicate 250 rec0) "p" "c" "a"
    cleanApi_clean (by decide) (by decide)
  have h0 := upload_call_count_ceil cleanApi [] "p" "c" "a"
    cleanApi_clean (by decide) (by decide)
  refine ⟨cleanApi_clean, by decide, by decide, ?_, ?_, ?_⟩
  · rw [h.1]; rfl
  · rw [h.2]; rfl
  · rw [h0.1]; rfl

/-- C3: if the external upload call raises a transport or API error on
batch index k (earlier calls succeeding), the error is not caught by
upload_data and propagates to the invocation boundary, and no batch
after k is ever submitted: the total call count is exactly k + 1. -/
theorem upload_transport_error_halts (api : Nat → Except Nat Response)
    (rows : List ConversionRecord) (p fc fa : String) (k e : Nat)
    (hbefore : ∀ i, i < k → ∃ resp, api i = Except.ok resp
      ∧ (processResponse resp).error = none)
    (herr : api k = Except.error e)
    (hk : k < (chunks rows).length)
    (hfa : fa ≠ "") (hfc : fc ≠ "") :
    (callWindows (upload_data api rows p fc fa).events).length = k + 1
      ∧ (upload_data api rows p fc fa).error = some (PyError.transport e) := by
  have h := uploadLoop_transport api p fc fa e rows.length rows 0 k (Nat.le_refl _)
    (fun i hi => by rw [Nat.zero_add]; exact hbefore i hi)
    (by rw [Nat.zero_add]; exact herr) hk
  unfold upload_data
  rw [if_neg (not_or.mpr ⟨hfa, hfc⟩)]
  exact ⟨by rw [callWindows_eq, List.length_map]; exact h.1, h.2⟩

/-- Witness for C3: with 250 records (3 batches) and a transport error
on the second call, exactly 2 calls occur and the error propagates. -/
theorem upload_transport_error_halts_witness :
    api1 1 = Except.error 7 ∧ 1 < (chunks (List.replicate 250 rec0)).length
      ∧ (callWindows (upload_data api1 (List.replicate 250 rec0) "p" "c" "a").events).length = 2
      ∧ (upload_data api1 (List.replicate 250 rec0) "p" "c" "a").error
          = some (PyError.transport 7) := by
  have h := upload_transport_error_halts api1 (List.replicate 250 rec0) "p" "c" "a" 1 7
    (fun i hi => by
      have hi0 : i = 0 := by omega
      subst hi0
      exact ⟨⟨false, []⟩, rfl, rfl⟩)
    rfl (by decide) (by decide) (by decide)
  exact ⟨rfl, by decide, h.1, h.2⟩

/-- C4 counterexample: with a non-empty conversions list and an ABSENT
config object, the handler does not report a missing-configuration
outcome and does not return normally: the membership test on None
raises TypeError, which propagates to the invocation boundary. This
refutes the claim as stated for the config-absent case. -/
theorem main_config_absent_raises :
    (mainHandler cleanApi ⟨some [rec0], none⟩).error = some PyError.typeError
      ∧ (mainHandler cleanApi ⟨some [rec0], none⟩).events = [] :=
  ⟨rfl, rfl⟩

/-- C4 (amended): for every decoded payload whose conversions list is
non-empty and whose config object is PRESENT, if any of the three
identifiers profile_id, floodlight_activity_id,
floodlight_configuration_id is absent (or empty), the handler reports a
missing-configuration outcome, never calls the uploader, and returns
normally. -/
theorem main_missing_identifiers_reported (api : Nat → Except Nat Response)
    (rows : List ConversionRecord) (cfg : Config)
    (hrows : rows ≠ [])
    (hmiss : strTruthy cfg.profile_id = false
      ∨ strTruthy cfg.floodlight_activity_id = false
      ∨ strTruthy cfg.floodlight_configuration_id = false) :
    mainHandler api ⟨some rows, some cfg⟩ = ⟨[Event.missingConfig], none⟩ := by
  have hemp : rows.isEmpty = false := by
    cases rows with
    | nil => exact absurd rfl hrows
    | cons a l => rfl
  simp only [mainHandler, hemp, Bool.false_eq_true, if_false]
  rw [if_neg]
  rcases hmiss with h | h | h <;> simp [h]

/-- Witness for the amended C4 at a concrete payload whose config lacks
the floodlight activity id. -/
theorem main_missing_identifiers_reported_witness :
    ([rec0] ≠ ([] : List ConversionRecord))
      ∧ strTruthy (Config.mk (some "p") none (some "c")).floodlight_activity_id = false
      ∧ mainHandler cleanApi ⟨some [rec0], some ⟨some "p", none, some "c"⟩⟩
          = ⟨[Event.missingConfig], none⟩ := by
  refine ⟨List.cons_ne_nil rec0 [], rfl, ?_⟩
  exact main_missing_identifiers_reported cleanApi [rec0] ⟨some "p", none, some "c"⟩
    (List.cons_ne_nil rec0 []) (Or.inr (Or.inl rfl))

/-- C5 counterexample: a status line with no errors field AND no gclid
field is not reported as inserted; the fallback itself raises KeyError
on gclid and the line walk aborts. This refutes the claim as stated,
which covers every line without a recognizable errors field. -/
theorem fallback_no_gclid_aborts_walk :
    (processResponse ⟨true, [⟨none, none, none⟩]⟩).events = []
      ∧ (processResponse ⟨true, [⟨none, none, none⟩]⟩).error
          = some (PyError.keyError "gclid") :=
  ⟨rfl, rfl⟩

/-- C5 (amended): for a response with hasFailures = true, a status line
that carries no recognizable errors field but does carry a gclid is
reported as successfully inserted rather than aborting the line walk. -/
theorem missing_errors_field_reported_inserted (line : StatusLine) (g : String)
    (herrs : line.errors = none) (hg : line.gclid = some g) :
    processLine line = Except.ok [Event.insertedFallback g]
      ∧ ∀ resp : Response, resp.hasFailures = true → resp.status = [line] →
          processResponse resp = ⟨[Event.insertedFallback g], none⟩ := by
  have h1 : processLine line = Except.ok [Event.insertedFallback g] := by
    simp only [processLine, tryLineErrors, herrs, hg]
  refine ⟨h1, ?_⟩
  intro resp hfail hstat
  simp [processResponse, hfail, hstat, runStatus, h1]

/-- Witness for the amended C5 at a concrete line without an errors
field but with a gclid. -/
theorem missing_errors_field_reported_inserted_witness :
    (StatusLine.mk none none (some "g1")).errors = none
      ∧ (StatusLine.mk none none (some "g1")).gclid = some "g1"
      ∧ processLine ⟨none, none, some "g1"⟩ = Except.ok [Event.insertedFallback "g1"]
      ∧ processResponse ⟨true, [⟨none, none, some "g1"⟩]⟩
          = ⟨[Event.insertedFallback "g1"], none⟩ := by
  have h := missing_errors_field_reported_inserted ⟨none, none, some "g1"⟩ "g1" rfl rfl
  exact ⟨rfl, rfl, h.1, h.2 ⟨true, [⟨none, none, some "g1"⟩]⟩ rfl rfl⟩

/-- C6: on a clean run with non-empty floodlight identifiers, every
request body upload_data submits is the serialization of the tagged
batch-insert object: the fixed header with the batch-insert kind
marker, then one serialized conversion object per record of the window
joined by commas, then the closing brackets; and each conversion object
carries the fixed conversion kind marker, the click id, ordinal,
timestamp, value and quantity of its record copied field-for-field and
the same constant floodlight activity and configuration ids. -/
theorem upload_body_tagged_object (api : Nat → Except Nat Response)
    (rows : List ConversionRecord) (p fc fa : String)
    (hclean : cleanFrom api 0) (hfa : fa ≠ "") (hfc : fc ≠ "") :
    (∀ t ∈ callEvents (upload_data api rows p fc fa).events,
        t.2.2 = batchHeader
          ++ intercalateComma (t.2.1.map (conversionStr fc fa)) ++ "]\x7d")
      ∧ ∀ row, conversionJson fc fa row = Json.obj [
          ("kind", Json.str "dfareporting#conversion"),
          ("gclid", row.conversionVisitExternalClickId),
          ("floodlightActivityId", Json.str fa),
          ("floodlightConfigurationId", Json.str fc),
          ("ordinal", row.conversionId),
          ("timestampMicros", row.conversionTimestampMicros),
          ("value", row.conversionRevenue),
          ("quantity", row.conversionQuantity)] := by
  constructor
  · intro t ht
    rw [(upload_data_clean api rows p fc fa hclean hfa hfc).1] at ht
    obtain ⟨w, hw, rfl⟩ := List.mem_map.mp ht
    have hpos := (chunks_sizes rows.length rows (Nat.le_refl _) w hw).2
    have hwne : w ≠ [] := by
      intro hnil
      rw [hnil] at hpos
      simp at hpos
    exact bodyString_eq fc fa w hwne
  · intro row
    rfl

/-- Witness for C6 at a concrete one-record run. -/
theorem upload_body_tagged_object_witness :
    (("p", [rec0], bodyString "c" "a" [rec0])
        ∈ callEvents (upload_data cleanApi [rec0] "p" "c" "a").events)
      ∧ bodyString "c" "a" [rec0]
          = batchHeader ++ intercalateComma ([rec0].map (conversionStr "c" "a")) ++ "]\x7d" := by
  have hmem : ("p", [rec0], bodyString "c" "a" [rec0])
      ∈ callEvents (upload_data cleanApi [rec0] "p" "c" "a").events := by
    rw [show callEvents (upload_data cleanApi [rec0] "p" "c" "a").events
        = [("p", [rec0], bodyString "c" "a" [rec0])] from rfl]
    exact List.mem_singleton.mpr rfl
  exact ⟨hmem, (upload_body_tagged_object cleanApi [rec0] "p" "c" "a"
    cleanApi_clean (by decide) (by decide)).1 _ hmem⟩

/-- C7: for a response with hasFailures = true, a status line that
carries a conversion and one or more (code, message) error entries has
each pair reported, attributed to the serialized form of the conversion
of that same line. -/
theorem error_entries_reported_with_conversion (line : StatusLine) (conv : Json)
    (errs : List ErrorEntry)
    (hconv : line.conversion = some conv) (herrs : line.errors = some errs)
    (hne : errs ≠ []) :
    processLine line
        = Except.ok (errs.map fun e => Event.errorReport (dumps conv) e.code e.message)
      ∧ ∀ resp : Response, resp.hasFailures = true → resp.status = [line] →
          processResponse resp
            = ⟨errs.map fun e => Event.errorReport (dumps conv) e.code e.message, none⟩ := by
  have hemp : errs.isEmpty = false := by
    cases errs with
    | nil => exact absurd rfl hne
    | cons a l => rfl
  have h1 : processLine line
      = Except.ok (errs.map fun e => Event.errorReport (dumps conv) e.code e.message) := by
    simp only [processLine, tryLineErrors, herrs, hconv, hemp, Bool.false_eq_true, if_false]
  refine ⟨h1, ?_⟩
  intro resp hfail hstat
  simp [processResponse, hfail, hstat, runStatus, h1]

/-- Witness for C7 at a concrete line with one error entry. -/
theorem error_entries_reported_with_conversion_witness :
    (StatusLine.mk (some (Json.str "cv")) (some [⟨"X", "Y"⟩]) none).conversion
        = some (Json.str "cv")
      ∧ ([(⟨"X", "Y"⟩ : ErrorEntry)] ≠ [])
      ∧ processLine ⟨some (Json.str "cv"), some [⟨"X", "Y"⟩], none⟩
          = Except.ok [Event.errorReport (dumps (Json.str "cv")) "X" "Y"]
      ∧ processResponse ⟨true, [⟨some (Json.str "cv"), some [⟨"X", "Y"⟩], none⟩]⟩
          = ⟨[Event.errorReport (dumps (Json.str "cv")) "X" "Y"], none⟩ := by
  have h := error_entries_reported_with_conversion
    ⟨some (Json.str "cv"), some [⟨"X", "Y"⟩], none⟩ (Json.str "cv") [⟨"X", "Y"⟩]
    rfl rfl (List.cons_ne_nil _ _)
  exact ⟨rfl, List.cons_ne_nil _ _, h.1,
    h.2 ⟨true, [⟨some (Json.str "cv"), some [⟨"X", "Y"⟩], none⟩]⟩ rfl rfl⟩

/-- C8: when the floodlight activity id or the floodlight configuration
id is empty, upload_data reports the condition and returns immediately,
performing zero upload calls and raising no exception. -/
theorem missing_floodlight_guard_returns (api : Nat → Except Nat Response)
    (rows : List ConversionRecord) (p fc fa : String)
    (h : fa = "" ∨ fc = "") :
    upload_data api rows p fc fa = ⟨[Event.missingFloodlight], none⟩
      ∧ callWindows (upload_data api rows p fc fa).events = [] := by
  have h1 : upload_data api rows p fc fa = ⟨[Event.missingFloodlight], none⟩ := by
    unfold upload_data
    rw [if_pos h]
  exact ⟨h1, by rw [h1]; rfl⟩

/-- Witness for C8 with an empty floodlight activity id. -/
theorem missing_floodlight_guard_returns_witness :
    (("" : String) = "" ∨ ("c" : String) = "")
      ∧ upload_data cleanApi [rec0] "p" "c" "" = ⟨[Event.missingFloodlight], none⟩
      ∧ callWindows (upload_data cleanApi [rec0] "p" "c" "").events = [] := by
  have h := missing_floodlight_guard_returns cleanApi [rec0] "p" "c" "" (Or.inl rfl)
  exact ⟨Or.inl rfl, h.1, h.2⟩

/-- C9: every batch whose response has hasFailures = false is reported
as a success and no per-line error report is emitted for it. -/
theorem no_failures_reports_success (resp : Response)
    (h : resp.hasFailures = false) :
    processResponse resp = ⟨[Event.batchSuccess], none⟩
      ∧ ∀ s c m, Event.errorReport s c m ∉ (processResponse resp).events := by
  have h1 : processResponse resp = ⟨[Event.batchSuccess], none⟩ := by
    simp [processResponse, h]
  refine ⟨h1, ?_⟩
  intro s c m hmem
  rw [h1] at hmem
  simp at hmem

/-- Witness for C9 at a concrete failure-free response. -/
theorem no_failures_reports_success_witness :
    (Response.mk false []).hasFailures = false
      ∧ processResponse ⟨false, []⟩ = ⟨[Event.batchSuccess], none⟩ := by
  exact ⟨rfl, (no_failures_reports_success ⟨false, []⟩ rfl).1⟩

/-- C10 counterexample: a status line with a non-empty errors list, no
conversion field and no gclid field is NOT reported as successfully
inserted: the fallback raises KeyError on gclid and the walk aborts.
This refutes the claim as stated, which covers every such line. -/
theorem error_line_without_gclid_aborts :
    (processResponse ⟨true, [⟨none, some [⟨"X", "Y"⟩], none⟩]⟩).events = []
      ∧ (processResponse ⟨true, [⟨none, some [⟨"X", "Y"⟩], none⟩]⟩).error
          = some (PyError.keyError "gclid") :=
  ⟨rfl, rfl⟩

/-- C10 (amended): for a status line with a non-empty errors list that
lacks a conversion field but carries a gclid, the exception raised
while reporting the first error makes the bare handler report the
entire line as successfully inserted, and every error entry on the line
is suppressed. -/
theorem missing_conversion_line_reported_inserted (line : StatusLine)
    (errs : List ErrorEntry) (g : String)
    (herrs : line.errors = some errs) (hne : errs ≠ [])
    (hconv : line.conversion = none) (hg : line.gclid = some g) :
    processLine line = Except.ok [Event.insertedFallback g]
      ∧ ∀ resp : Response, resp.hasFailures = true → resp.status = [line] →
          processResponse resp = ⟨[Event.insertedFallback g], none⟩ := by
  have hemp : errs.isEmpty = false := by
    cases errs with
    | nil => exact absurd rfl hne
    | cons a l => rfl
  have h1 : processLine line = Except.ok [Event.insertedFallback g] := by
    simp only [processLine, tryLineErrors, herrs, hconv, hg, hemp, Bool.false_eq_true,
      if_false]
  refine ⟨h1, ?_⟩
  intro resp hfail hstat
  simp [processResponse, hfail, hstat, runStatus, h1]

/-- Witness for the amended C10 at a concrete line with one error
entry, no conversion field and a gclid. -/
theorem missing_conversion_line_reported_inserted_witness :
    (StatusLine.mk none (some [⟨"X", "Y"⟩]) (some "g9")).conversion = none
      ∧ ([(⟨"X", "Y"⟩ : ErrorEntry)] ≠ [])
      ∧ processLine ⟨none, some [⟨"X", "Y"⟩], some "g9"⟩
          = Except.ok [Event.insertedFallback "g9"]
      ∧ processResponse ⟨true, [⟨none, some [⟨"X", "Y"⟩], some "g9"⟩]⟩
          = ⟨[Event.insertedFallback "g9"], none⟩ := by
  have h := missing_conversion_line_reported_inserted
    ⟨none, some [⟨"X", "Y"⟩], some "g9"⟩ [⟨"X", "Y"⟩] "g9"
    rfl (List.cons_ne_nil _ _) rfl rfl
  exact ⟨rfl, List.cons_ne_nil _ _, h.1,
    h.2 ⟨true, [⟨none, some [⟨"X", "Y"⟩], some "g9"⟩]⟩ rfl rfl⟩

end CM360
